import Mathlib

/-!
Verification of the CrossVault entrypoint (src/src/lib.rs).

The program is a single Solana entrypoint `process_instruction` that
receives a program identifier, a slice of account references and a raw
byte payload, logs the fixed string "feanor!" via `msg!`, and returns
`Ok(())`.

The embedding models the host-visible state explicitly: the diagnostic
log sink is a list of strings that `msg` appends to, and the account
records (host-owned, mutable through the references) are threaded
through each call.  A second, finer view records the ordered trace of
observable events of one call, so that ordering properties (the log
write happening before the return) can be stated.
-/

namespace CrossVault

/-- 32-byte public key, `solana_program::pubkey::Pubkey`; the program
treats it as an opaque value. -/
structure Pubkey where
  bytes : List Nat
deriving DecidableEq, Repr

/-- Account reference, `solana_program::account_info::AccountInfo`:
address, balance in lamports, owned data region, owner program and
permission flags. -/
structure AccountInfo where
  key : Pubkey
  lamports : Nat
  data : List Nat
  owner : Pubkey
  is_signer : Bool
  is_writable : Bool
  executable : Bool
deriving DecidableEq, Repr

/-- Error half of `solana_program::entrypoint::ProgramResult`
(`ProgramError`); the body of this program never builds one. -/
inductive ProgramError where
  | custom (code : Nat)
  | invalidArgument
deriving DecidableEq, Repr

/-- `ProgramResult = Result<(), ProgramError>`. -/
abbrev ProgramResult := Except ProgramError Unit

/-- One host-observable event of a call: a line written to the log
sink, or the function returning with a result. -/
inductive Event where
  | logEntry (s : String)
  | returned (r : ProgramResult)
deriving Repr

/-- The `msg!` macro: appends one line to the host's diagnostic log
sink. -/
def msg (log : List String) (s : String) : List String := log ++ [s]

/-- Outcome of one call of `process_instruction`: its returned result,
the account records after the call (mutations would be visible to the
host), and the log sink after the call. -/
structure CallOutcome where
  result : ProgramResult
  accounts : List AccountInfo
  log : List String
deriving Repr

/-- Shallow embedding of `process_instruction` (src/src/lib.rs lines
15-28), with the host state (account records and log sink) passed
explicitly.  The body logs `"feanor!"` and returns `Ok(())`; the
account records are untouched. -/
def process_instruction (program_id : Pubkey) (accounts : List AccountInfo)
    (instruction_data : List Nat) (log : List String) : CallOutcome :=
  let log := msg log "feanor!"
  { result := Except.ok (), accounts := accounts, log := log }

/-- Ordered trace of the observable events of one call of
`process_instruction`: the `msg!("feanor!")` write, then the return of
`Ok(())`. -/
def process_instruction_events (program_id : Pubkey)
    (accounts : List AccountInfo) (instruction_data : List Nat) : List Event :=
  let t := [Event.logEntry "feanor!"]
  t ++ [Event.returned (Except.ok ())]

/-- Log lines carried by a trace, in order. -/
def logsOfTrace (tr : List Event) : List String :=
  tr.filterMap fun e =>
    match e with
    | Event.logEntry s => some s
    | Event.returned _ => none

/-- First returned result carried by a trace, if any. -/
def resultOfTrace (tr : List Event) : Option ProgramResult :=
  tr.findSome? fun e =>
    match e with
    | Event.logEntry _ => none
    | Event.returned r => some r

/-- Host state threaded between successive invocations: the account
records and the accumulated log sink. -/
structure HostState where
  accounts : List AccountInfo
  log : List String
deriving DecidableEq, Repr

/-- One invocation through the host: the program sees the current
account records and log sink, and the host keeps the records and sink
the call left behind. -/
def invoke (program_id : Pubkey) (instruction_data : List Nat)
    (st : HostState) : ProgramResult × HostState :=
  let out := process_instruction program_id st.accounts instruction_data st.log
  (out.result, { accounts := out.accounts, log := out.log })

/-- `n` repeated invocations with identical inputs, collecting the
results of the calls in order. -/
def invoke_n (program_id : Pubkey) (instruction_data : List Nat) :
    Nat → HostState → List ProgramResult × HostState
  | 0, st => ([], st)
  | Nat.succ n, st =>
    let p := invoke program_id instruction_data st
    let q := invoke_n program_id instruction_data n p.2
    (p.1 :: q.1, q.2)

end CrossVault

namespace CrossVault

/-- C1: for every program identifier, account list (including empty),
byte payload (including empty) and prior log, `process_instruction`
returns the success result carrying the unit value. -/
theorem c1_always_ok (pid : Pubkey) (accts : List AccountInfo)
    (data : List Nat) (log : List String) :
    (process_instruction pid accts data log).result = Except.ok () := rfl

/-- C2: one invocation appends exactly one log entry, the literal
string "feanor!", to the log sink, and its event trace carries exactly
that one log line and no other. -/
theorem c2_exactly_one_log (pid : Pubkey) (accts : List AccountInfo)
    (data : List Nat) (log : List String) :
    (process_instruction pid accts data log).log = log ++ ["feanor!"] ∧
    logsOfTrace (process_instruction_events pid accts data) = ["feanor!"] :=
  ⟨rfl, rfl⟩

/-- C3: the failure branch of the result type is never returned: the
outcome is the success result, and it differs from `Except.error e`
for every program error `e`. -/
theorem c3_no_error (pid : Pubkey) (accts : List AccountInfo)
    (data : List Nat) (log : List String) :
    (process_instruction pid accts data log).result = Except.ok () ∧
    ∀ e : ProgramError,
      (process_instruction pid accts data log).result ≠ Except.error e :=
  ⟨rfl, fun e h => Except.noConfusion h⟩

/-- C4: in the ordered event trace of one call, the "feanor!" log
write occurs at an index strictly before the index at which the
success result is returned. -/
theorem c4_log_before_return (pid : Pubkey) (accts : List AccountInfo)
    (data : List Nat) :
    ∃ i j : Nat, i < j ∧
      (process_instruction_events pid accts data).get? i =
        some (Event.logEntry "feanor!") ∧
      (process_instruction_events pid accts data).get? j =
        some (Event.returned (Except.ok ())) :=
  ⟨0, 1, Nat.zero_lt_one, rfl, rfl⟩

/-- C5: the call neither mutates nor inspects its inputs: the account
records are returned unchanged, and the result and the log sink after
the call are the same whatever the program identifier, account list
and payload were. -/
theorem c5_frame (pid pid' : Pubkey) (accts accts' : List AccountInfo)
    (data data' : List Nat) (log : List String) :
    (process_instruction pid accts data log).accounts = accts ∧
    (process_instruction pid accts data log).result =
      (process_instruction pid' accts' data' log).result ∧
    (process_instruction pid accts data log).log =
      (process_instruction pid' accts' data' log).log :=
  ⟨rfl, rfl, rfl⟩

/-- C6: repeated calls with identical inputs are independent: for any
number `n` of repetitions, every call returns success, each call
appends exactly one "feanor!" line, and the account records are left
unchanged — no state other than the host's log accumulates across the
calls. -/
theorem c6_idempotent_repetition (pid : Pubkey) (data : List Nat)
    (n : Nat) (st : HostState) :
    (invoke_n pid data n st).1 = List.replicate n (Except.ok ()) ∧
    (invoke_n pid data n st).2.log = st.log ++ List.replicate n "feanor!" ∧
    (invoke_n pid data n st).2.accounts = st.accounts := by
  induction n generalizing st with
  | zero => simp [invoke_n]
  | succ n ih =>
    obtain ⟨h1, h2, h3⟩ :=
      ih { accounts := st.accounts, log := st.log ++ ["feanor!"] }
    refine ⟨?_, ?_, ?_⟩
    · simp [invoke_n, invoke, process_instruction, msg, h1, List.replicate]
    · simp only [invoke_n, invoke, process_instruction, msg] at h2 ⊢
      simp only [h2, List.replicate, List.append_assoc]
      rfl
    · simpa [invoke_n, invoke, process_instruction, msg] using h3

/-- C7: two sequential calls with possibly different inputs both
return success, the first leaves one "feanor!" line behind and the
second a second identical one, so the log gains exactly the two
entries ["feanor!", "feanor!"]. -/
theorem c7_two_calls (pid1 pid2 : Pubkey) (data1 data2 : List Nat)
    (st : HostState) :
    (invoke pid1 data1 st).1 = Except.ok () ∧
    (invoke pid2 data2 (invoke pid1 data1 st).2).1 = Except.ok () ∧
    (invoke pid1 data1 st).2.log = st.log ++ ["feanor!"] ∧
    (invoke pid2 data2 (invoke pid1 data1 st).2).2.log =
      st.log ++ ["feanor!", "feanor!"] := by
  refine ⟨rfl, rfl, rfl, ?_⟩
  simp [invoke, process_instruction, msg]

/-- C8: the degenerate input shape — empty account list, empty
payload, arbitrary program identifier — is accepted: starting from an
empty log the call returns success and the log is exactly
["feanor!"]. -/
theorem c8_degenerate_input (pid : Pubkey) :
    (process_instruction pid [] [] []).result = Except.ok () ∧
    (process_instruction pid [] [] []).log = ["feanor!"] := ⟨rfl, rfl⟩

/-- C9: noninterference: two invocations with arbitrary, possibly
different inputs produce identical observable behaviour — the same
event trace, hence the same result and the same log output. -/
theorem c9_noninterference (pid1 pid2 : Pubkey)
    (accts1 accts2 : List AccountInfo) (data1 data2 : List Nat) :
    process_instruction_events pid1 accts1 data1 =
      process_instruction_events pid2 accts2 data2 := rfl

/-- C10: the call terminates on every input: its event trace is finite
(two events) and ends with a returned result, namely success. -/
theorem c10_terminates (pid : Pubkey) (accts : List AccountInfo)
    (data : List Nat) :
    (process_instruction_events pid accts data).length = 2 ∧
    resultOfTrace (process_instruction_events pid accts data) =
      some (Except.ok ()) := ⟨rfl, rfl⟩

end CrossVault
